import Mathlib

/-!
Shallow embedding of the juanmvsa/reddit_crawler repository (src/crawler.py and
src/main.py) and proofs about its specification.

Modelling conventions:
* A Python string that is manipulated character-wise (the comment body) is
  modelled as its sequence of characters, `List Char`; other strings are `String`.
* Python dicts with a fixed key set become structures; the insertion-ordered
  `subreddit_activity` dict becomes an association list `List (String × SubActivity)`.
* A Python `set[str]` becomes a duplicate-free `List String` (only observed
  through `sorted(list(...))`).
* JSON values are the inductive type `JVal`; the `json` library round-trip is the
  identity on this tree.
* A fetch that may raise becomes an `Except String` value; the operations of the
  crawler are functions of that outcome, returning their result together with the
  list of lines printed.
* Python integers are `Int` or `Nat`; timestamps carried but never computed on
  are `Int`.
-/

/-- Characters of the ellipsis marker `"..."` appended by comment-body truncation. -/
def ellipsis : List Char := ['.', '.', '.']

/-- Comment body truncation from `get_user_recent_activity` (src/crawler.py lines
202-206, src/main.py lines 109-113): `comment.body[:200] + "..." if
len(comment.body) > 200 else comment.body`. -/
def truncate_body (body : List Char) : List Char :=
  if body.length > 200 then body.take 200 ++ ellipsis else body

/-- Fields read from a praw submission object in `get_user_recent_activity`
(src/crawler.py lines 184-194). -/
structure RawSubmission where
  title : String
  subreddit : String
  created_utc : Int
  score : Int
  permalink : String
  num_comments : Nat
deriving DecidableEq

/-- Fields read from a praw comment object in `get_user_recent_activity`
(src/crawler.py lines 199-211). -/
structure RawComment where
  body : List Char
  subreddit : String
  created_utc : Int
  score : Int
  submission_title : String
deriving DecidableEq

/-- The post dict built in `get_user_recent_activity` (src/crawler.py lines
185-194; the src/main.py variant omits `num_comments`). -/
structure Post where
  title : String
  subreddit : String
  created_utc : Int
  score : Int
  url : String
  num_comments : Nat
deriving DecidableEq

/-- The comment dict built in `get_user_recent_activity` (src/crawler.py lines
200-212 and src/main.py lines 107-119). -/
structure Comment where
  body : List Char
  subreddit : String
  created_utc : Int
  score : Int
  submission_title : String
deriving DecidableEq

/-- Construction of one post dict from a submission (src/crawler.py lines 185-194). -/
def mkPost (s : RawSubmission) : Post :=
  { title := s.title
    subreddit := s.subreddit
    created_utc := s.created_utc
    score := s.score
    url := "https://reddit.com" ++ s.permalink
    num_comments := s.num_comments }

/-- Construction of one comment dict from a raw comment (src/crawler.py lines
200-212); the body is truncated. -/
def mkComment (c : RawComment) : Comment :=
  { body := truncate_body c.body
    subreddit := c.subreddit
    created_utc := c.created_utc
    score := c.score
    submission_title := c.submission_title }

/-- Per-community counters, the dict `{"posts": 0, "comments": 0}` of
src/crawler.py lines 257 and 265. -/
structure SubActivity where
  posts : Nat
  comments : Nat
deriving DecidableEq

/-- Key membership test `subreddit not in subreddit_activity` (negated) on the
insertion-ordered dict, modelled as an association list. -/
def containsKey (m : List (String × SubActivity)) (s : String) : Bool :=
  m.any (fun e => e.1 == s)

/-- The statement `subreddit_activity[subreddit]["posts"] += 1` (src/crawler.py
line 258). -/
def incPosts (m : List (String × SubActivity)) (s : String) :
    List (String × SubActivity) :=
  m.map (fun e => if e.1 == s then (e.1, ⟨e.2.posts + 1, e.2.comments⟩) else e)

/-- The statement `subreddit_activity[subreddit]["comments"] += 1` (src/crawler.py
line 266). -/
def incComments (m : List (String × SubActivity)) (s : String) :
    List (String × SubActivity) :=
  m.map (fun e => if e.1 == s then (e.1, ⟨e.2.posts, e.2.comments + 1⟩) else e)

/-- Python `set.add`, modelled on a duplicate-free list. -/
def setAdd (s : List String) (x : String) : List String :=
  if s.contains x then s else s ++ [x]

/-- Effect of one iteration of the posts loop on `subreddit_activity`
(src/crawler.py lines 256-258): create a zero entry if absent, then increment
the post counter. -/
def stepPostMap (m : List (String × SubActivity)) (s : String) :
    List (String × SubActivity) :=
  incPosts (if containsKey m s then m else m ++ [(s, ⟨0, 0⟩)]) s

/-- Effect of one iteration of the comments loop on `subreddit_activity`
(src/crawler.py lines 264-266). -/
def stepCommentMap (m : List (String × SubActivity)) (s : String) :
    List (String × SubActivity) :=
  incComments (if containsKey m s then m else m ++ [(s, ⟨0, 0⟩)]) s

/-- One iteration of the posts loop of `get_active_subreddits` (src/crawler.py
lines 253-258): add the subreddit to the set and update the dict. -/
def stepPost (acc : List String × List (String × SubActivity)) (post : Post) :
    List String × List (String × SubActivity) :=
  (setAdd acc.1 post.subreddit, stepPostMap acc.2 post.subreddit)

/-- One iteration of the comments loop of `get_active_subreddits` (src/crawler.py
lines 261-266). -/
def stepComment (acc : List String × List (String × SubActivity)) (comment : Comment) :
    List String × List (String × SubActivity) :=
  (setAdd acc.1 comment.subreddit, stepCommentMap acc.2 comment.subreddit)

/-- Python `sorted` on a list of strings: lexicographically ascending by
code point, matching the `LinearOrder String` order. -/
def sortStrings (l : List String) : List String :=
  List.insertionSort (· ≤ ·) l

/-- The aggregation of `get_active_subreddits` (src/crawler.py lines 248-279) as a
function of the fetched posts and comments: the sorted community list
(`sorted(list(subreddits))`, the return value and the `subreddits_list` field)
and the `subreddit_activity` dict (the `detailed_activity` field). -/
def get_active_subreddits (posts : List Post) (comments : List Comment) :
    List String × List (String × SubActivity) :=
  let acc := comments.foldl stepComment (posts.foldl stepPost ([], []))
  (sortStrings acc.1, acc.2)

/-- The aggregation of `get_active_subreddits` of the src/main.py variant (lines
143-154), which builds only the set of community names. -/
def main_get_active_subreddits (posts : List Post) (comments : List Comment) :
    List String :=
  sortStrings
    (comments.foldl (fun s c => setAdd s c.subreddit)
      (posts.foldl (fun s p => setAdd s p.subreddit) []))

/-- Dict lookup `subreddit_activity[s]` on the association list. -/
def dictGet (m : List (String × SubActivity)) (s : String) : Option SubActivity :=
  (m.find? (fun e => e.1 == s)).map (fun e => e.2)

/-- Number of posts tagged with community `s`. -/
def postCount (ps : List Post) (s : String) : Nat :=
  ps.countP (fun p => p.subreddit == s)

/-- Number of comments tagged with community `s`. -/
def commentCount (cs : List Comment) (s : String) : Nat :=
  cs.countP (fun c => c.subreddit == s)

/-- Sum of the post counters over all entries of the activity dict. -/
def sumPosts (m : List (String × SubActivity)) : Nat :=
  (m.map (fun e => e.2.posts)).sum

/-- Sum of the comment counters over all entries of the activity dict. -/
def sumComments (m : List (String × SubActivity)) : Nat :=
  (m.map (fun e => e.2.comments)).sum

/-- Post counter of an optional dict entry, zero when absent. -/
def optPosts (a : Option SubActivity) : Nat :=
  match a with
  | some x => x.posts
  | none => 0

/-- Comment counter of an optional dict entry, zero when absent. -/
def optComments (a : Option SubActivity) : Nat :=
  match a with
  | some x => x.comments
  | none => 0

/-- JSON values as written by the persistence sink; the `json` library
serialize-then-parse round-trip is the identity on this tree. -/
inductive JVal where
  | null : JVal
  | bool : Bool → JVal
  | num : Int → JVal
  | str : String → JVal
  | arr : List JVal → JVal
  | obj : List (String × JVal) → JVal

/-- Keys of a JSON object, in order. -/
def objKeys : JVal → List String
  | .obj fields => fields.map Prod.fst
  | _ => []

/-- Lookup of a key in a JSON object (what a reader of the file observes). -/
def objGet (j : JVal) (k : String) : Option JVal :=
  match j with
  | .obj fields => (fields.find? (fun e => e.1 == k)).map (fun e => e.2)
  | _ => none

/-- Document constructed by the persistence sink `_save_to_json` (src/crawler.py
lines 105-127): the payload wrapped with a timestamp (produced externally by
`datetime.now().isoformat()`, here a parameter) and the file name as `data_type`. -/
def save_to_json_doc (timestamp : String) (filename : String) (data : JVal) : JVal :=
  JVal.obj [("timestamp", JVal.str timestamp),
            ("data_type", JVal.str filename),
            ("data", data)]

/-- Operation `get_user_public_info` (src/crawler.py lines 129-162) as a function
of the outcome of its try block (platform fetch plus field extraction, whose
successful value is the user-info dict): on a raised error it prints one message
and returns the empty dict. Result is paired with the printed lines. -/
def get_user_public_info (username : String) (attempt : Except String JVal) :
    JVal × List String :=
  match attempt with
  | .ok info => (info, [])
  | .error e => (JVal.obj [], ["error fetching user info for " ++ username ++ ": " ++ e])

/-- Operation `get_user_recent_activity` (src/crawler.py lines 164-233) as a
function of the outcome of the platform fetch: on success it builds the post and
comment dicts (truncating comment bodies); on a raised error it prints one
message and returns the dict of two empty lists. -/
def get_user_recent_activity (username : String)
    (attempt : Except String (List RawSubmission × List RawComment)) :
    (List Post × List Comment) × List String :=
  match attempt with
  | .ok fetched => ((fetched.1.map mkPost, fetched.2.map mkComment), [])
  | .error e =>
    (([], []), ["error fetching activity for " ++ username ++ ": " ++ e])

/-- Operation `get_my_subscriptions` (src/crawler.py lines 281-323) as a function
of the fetched subreddit display names: sorted names on success, two printed
lines and the empty list on a raised error. -/
def get_my_subscriptions (attempt : Except String (List String)) :
    List String × List String :=
  match attempt with
  | .ok names => (sortStrings names, [])
  | .error e =>
    ([], ["error fetching subscriptions: " ++ e,
          "make sure you're authenticated with username/password"])

/-- Operation `get_my_friends` (src/crawler.py lines 325-361) as a function of the
fetched friend names: the names on success, one printed line and the empty list
on a raised error. -/
def get_my_friends (attempt : Except String (List String)) :
    List String × List String :=
  match attempt with
  | .ok names => (names, [])
  | .error e => ([], ["error fetching friends list: " ++ e])

/-- Environment variables read by `_load_credentials` (src/crawler.py lines
57-63); `none` models an unset variable. -/
structure Env where
  client_id : Option String
  client_secret : Option String
  user_agent : Option String
  username : Option String
  password : Option String
deriving DecidableEq

/-- Keys present in a parsed `secrets.json`; `none` models an absent key. -/
structure SecretsFile where
  client_id : Option String
  client_secret : Option String
  user_agent : Option String
  username : Option String
  password : Option String
deriving DecidableEq

/-- State of the `secrets.json` file on disk: absent, present but not valid JSON
(`json.load` raises and the error is caught), or present and parsed. -/
inductive SecretsState where
  | absent : SecretsState
  | unreadable : SecretsState
  | present : SecretsFile → SecretsState
deriving DecidableEq

/-- The credentials dict of `_load_credentials`. -/
structure Credentials where
  client_id : Option String
  client_secret : Option String
  user_agent : Option String
  username : Option String
  password : Option String
deriving DecidableEq

/-- Outcome of the fatal path of `_load_credentials`: whether
`_create_secrets_template` wrote a template (it does so only when no
`secrets.json` exists, src/crawler.py lines 97-103), and the `ValueError` text. -/
structure LoadFailure where
  templateCreated : Bool
  message : String
deriving DecidableEq

/-- Python truthiness of an `Optional[str]`: `None` and the empty string are falsy. -/
def truthy : Option String → Bool
  | none => false
  | some s => !(s == "")

/-- The credentials dict as first filled from environment variables
(src/crawler.py lines 57-63); `REDDIT_USER_AGENT` has the default
`"RedditCrawler/1.0"`. -/
def envCredentials (env : Env) : Credentials :=
  { client_id := env.client_id
    client_secret := env.client_secret
    user_agent := some (env.user_agent.getD "RedditCrawler/1.0")
    username := env.username
    password := env.password }

/-- Merge of one credential field by `credentials.update(file_credentials)`: a
key present in the file overwrites the current value. -/
def mergeField (fileVal current : Option String) : Option String :=
  match fileVal with
  | some v => some v
  | none => current

/-- Python `credentials.update(file_credentials)`: every key present in the file
overwrites the current value. -/
def updateFrom (c : Credentials) (f : SecretsFile) : Credentials :=
  { client_id := mergeField f.client_id c.client_id
    client_secret := mergeField f.client_secret c.client_secret
    user_agent := mergeField f.user_agent c.user_agent
    username := mergeField f.username c.username
    password := mergeField f.password c.password }

/-- Value a given key of the secrets file would contribute, `none` when the file
is absent, unreadable, or lacks the key. -/
def fileField (s : SecretsState) (get : SecretsFile → Option String) : Option String :=
  match s with
  | .present f => get f
  | _ => none

/-- A field is missing from both sources when neither the environment value nor
the file value is truthy. -/
def missingFromBoth (envVal fileVal : Option String) : Bool :=
  !truthy envVal && !truthy fileVal

/-- A required credential (client id or client secret) is missing from both the
environment and the secrets file. -/
def missing_required (env : Env) (s : SecretsState) : Bool :=
  missingFromBoth env.client_id (fileField s (fun f => f.client_id)) ||
    missingFromBoth env.client_secret (fileField s (fun f => f.client_secret))

/-- State of the `credentials` dict at src/crawler.py line 76, after the
environment read and the conditional secrets-file update: the file is consulted
only when the environment client id is falsy, and a parse failure leaves the
dict unchanged. -/
def credsAfter (env : Env) (secrets : SecretsState) : Credentials :=
  if !truthy (envCredentials env).client_id then
    match secrets with
    | .present f => updateFrom (envCredentials env) f
    | _ => envCredentials env
  else envCredentials env

/-- Whether the fatal path writes a template: `_create_secrets_template` writes
one exactly when no `secrets.json` exists. -/
def templateFlag (s : SecretsState) : Bool :=
  match s with
  | .absent => true
  | _ => false

/-- The credential loader `_load_credentials` (src/crawler.py lines 49-83):
environment variables first; if the environment client id is falsy and
`secrets.json` exists, the parsed file updates the dict (a parse error is caught
and ignored); if client id or client secret is still falsy, a template is
created when no file exists and a `ValueError` is raised. -/
def load_credentials (env : Env) (secrets : SecretsState) :
    Except LoadFailure Credentials :=
  if truthy (credsAfter env secrets).client_id &&
      truthy (credsAfter env secrets).client_secret then
    Except.ok (credsAfter env secrets)
  else
    Except.error
      { templateCreated := match secrets with | .absent => true | _ => false
        message :=
          "reddit credentials not found. please set environment variables or create secrets.json file." }

/-- Environment used in the concrete credential-precedence scenarios: no client
id, but a client secret and a user agent are set. -/
def envBoth : Env :=
  { client_id := none
    client_secret := some "env-secret"
    user_agent := some "env-agent"
    username := none
    password := none }

/-- Secrets file used in the concrete credential-precedence scenarios: every
credential key present. -/
def fileBoth : SecretsFile :=
  { client_id := some "file-id"
    client_secret := some "file-secret"
    user_agent := some "file-agent"
    username := some "file-user"
    password := some "file-pass" }

/-- Environment with no credentials at all. -/
def envEmpty : Env :=
  { client_id := none
    client_secret := none
    user_agent := none
    username := none
    password := none }

/-- Environment providing both required credentials. -/
def envFull : Env :=
  { client_id := some "env-id"
    client_secret := some "env-secret"
    user_agent := some "env-agent"
    username := none
    password := none }

/-- Example post in community go, from the worked example of spec section 8. -/
def examplePostGo : Post :=
  { title := "p1"
    subreddit := "go"
    created_utc := 0
    score := 1
    url := "https://reddit.com/r/go/p1"
    num_comments := 2 }

/-- Example post in community rust, from the worked example of spec section 8. -/
def examplePostRust : Post :=
  { title := "p2"
    subreddit := "rust"
    created_utc := 1
    score := 3
    url := "https://reddit.com/r/rust/p2"
    num_comments := 0 }

/-- Example comment in community go, from the worked example of spec section 8. -/
def exampleCommentGo : Comment :=
  { body := ['o', 'k']
    subreddit := "go"
    created_utc := 2
    score := 1
    submission_title := "p1" }

/-- Raw comment with a 250-character body. -/
def commentLong : RawComment :=
  { body := List.replicate 250 'a'
    subreddit := "go"
    created_utc := 3
    score := 0
    submission_title := "p1" }

/-- Raw comment with a 150-character body. -/
def commentShort : RawComment :=
  { body := List.replicate 150 'b'
    subreddit := "go"
    created_utc := 4
    score := 0
    submission_title := "p1" }

/-- Raw comment with a body of exactly 200 characters. -/
def commentExact : RawComment :=
  { body := List.replicate 200 'c'
    subreddit := "go"
    created_utc := 5
    score := 0
    submission_title := "p1" }

/-! ### Helper lemmas about the set of community names -/

theorem mem_setAdd {s : List String} {x y : String} :
    y ∈ setAdd s x ↔ y ∈ s ∨ y = x := by
  unfold setAdd
  by_cases hx : x ∈ s
  · rw [if_pos (by simpa using hx)]
    constructor
    · exact fun hy => Or.inl hy
    · rintro (hy | rfl)
      · exact hy
      · exact hx
  · rw [if_neg (by simpa using hx)]
    simp [List.mem_append]

theorem nodup_setAdd {s : List String} {x : String} (h : s.Nodup) :
    (setAdd s x).Nodup := by
  unfold setAdd
  by_cases hx : x ∈ s
  · rw [if_pos (by simpa using hx)]
    exact h
  · rw [if_neg (by simpa using hx)]
    simpa [List.nodup_append] using ⟨h, hx⟩

theorem mem_foldl_setAdd {α : Type} (f : α → String) :
    ∀ (l : List α) (s0 : List String) (x : String),
      x ∈ l.foldl (fun s a => setAdd s (f a)) s0 ↔ x ∈ s0 ∨ x ∈ l.map f := by
  intro l
  induction l with
  | nil => intro s0 x; simp
  | cons a l ih =>
    intro s0 x
    simp only [List.foldl_cons, List.map_cons, List.mem_cons]
    rw [ih]
    rw [mem_setAdd]
    tauto

theorem nodup_foldl_setAdd {α : Type} (f : α → String) :
    ∀ (l : List α) (s0 : List String), s0.Nodup →
      (l.foldl (fun s a => setAdd s (f a)) s0).Nodup := by
  intro l
  induction l with
  | nil => intro s0 h; simpa using h
  | cons a l ih =>
    intro s0 h
    exact ih _ (nodup_setAdd h)

theorem fst_foldl_stepPost :
    ∀ (ps : List Post) (acc : List String × List (String × SubActivity)),
      (ps.foldl stepPost acc).1 = ps.foldl (fun s p => setAdd s p.subreddit) acc.1 := by
  intro ps
  induction ps with
  | nil => intro acc; rfl
  | cons p ps ih => intro acc; simpa [stepPost] using ih (stepPost acc p)

theorem fst_foldl_stepComment :
    ∀ (cs : List Comment) (acc : List String × List (String × SubActivity)),
      (cs.foldl stepComment acc).1 = cs.foldl (fun s c => setAdd s c.subreddit) acc.1 := by
  intro cs
  induction cs with
  | nil => intro acc; rfl
  | cons c cs ih => intro acc; simpa [stepComment] using ih (stepComment acc c)

theorem snd_foldl_stepPost :
    ∀ (ps : List Post) (acc : List String × List (String × SubActivity)),
      (ps.foldl stepPost acc).2 = ps.foldl (fun m p => stepPostMap m p.subreddit) acc.2 := by
  intro ps
  induction ps with
  | nil => intro acc; rfl
  | cons p ps ih => intro acc; simpa [stepPost] using ih (stepPost acc p)

theorem snd_foldl_stepComment :
    ∀ (cs : List Comment) (acc : List String × List (String × SubActivity)),
      (cs.foldl stepComment acc).2 = cs.foldl (fun m c => stepCommentMap m c.subreddit) acc.2 := by
  intro cs
  induction cs with
  | nil => intro acc; rfl
  | cons c cs ih => intro acc; simpa [stepComment] using ih (stepComment acc c)

theorem mem_sortStrings {l : List String} {x : String} :
    x ∈ sortStrings l ↔ x ∈ l := by
  unfold sortStrings
  exact List.mem_insertionSort _

theorem sorted_le_sortStrings (l : List String) :
    (sortStrings l).Sorted (· ≤ ·) :=
  List.sorted_insertionSort _ l

theorem nodup_sortStrings {l : List String} (h : l.Nodup) :
    (sortStrings l).Nodup :=
  ((List.perm_insertionSort _ l).nodup_iff).mpr h

theorem active_list_spec (ps : List Post) (cs : List Comment) :
    (∀ x, x ∈ (get_active_subreddits ps cs).1 ↔
        x ∈ ps.map Post.subreddit ∨ x ∈ cs.map Comment.subreddit) ∧
    ((get_active_subreddits ps cs).1).Sorted (· < ·) := by
  have hfst :
      (cs.foldl stepComment (ps.foldl stepPost ([], []))).1 =
        cs.foldl (fun s c => setAdd s c.subreddit)
          (ps.foldl (fun s p => setAdd s p.subreddit) []) := by
    rw [fst_foldl_stepComment, fst_foldl_stepPost]
  have hmem : ∀ x,
      x ∈ (cs.foldl stepComment (ps.foldl stepPost ([], []))).1 ↔
        x ∈ ps.map Post.subreddit ∨ x ∈ cs.map Comment.subreddit := by
    intro x
    rw [hfst, mem_foldl_setAdd, mem_foldl_setAdd]
    simp
  have hnodup : ((cs.foldl stepComment (ps.foldl stepPost ([], []))).1).Nodup := by
    rw [hfst]
    exact nodup_foldl_setAdd _ _ _ (nodup_foldl_setAdd _ _ _ List.nodup_nil)
  constructor
  · intro x
    show x ∈ sortStrings _ ↔ _
    rw [mem_sortStrings]
    exact hmem x
  · exact (sorted_le_sortStrings _).lt_of_le (nodup_sortStrings hnodup)

/-! ### Helper lemmas about the activity dict -/

theorem containsKey_iff {m : List (String × SubActivity)} {s : String} :
    containsKey m s = true ↔ s ∈ m.map Prod.fst := by
  simp only [containsKey, List.any_eq_true, List.mem_map, beq_iff_eq]

theorem dictGet_cons (e : String × SubActivity) (m : List (String × SubActivity))
    (s : String) :
    dictGet (e :: m) s = if e.1 == s then some e.2 else dictGet m s := by
  cases h : (e.1 == s) <;> simp [dictGet, List.find?_cons, h]

theorem dictGet_map_entry (f : SubActivity → SubActivity) (s : String)
    (m : List (String × SubActivity)) (t : String) :
    dictGet (m.map (fun e => if e.1 == s then (e.1, f e.2) else e)) t =
      if t = s then (dictGet m t).map f else dictGet m t := by
  induction m with
  | nil =>
    by_cases h : t = s <;> simp [dictGet, h]
  | cons e m ih =>
    simp only [List.map_cons]
    by_cases hes : e.1 = s
    · by_cases het : e.1 = t
      · have hts : t = s := by rw [← het, hes]
        simp [dictGet_cons, hes, het, hts]
      · have hts : ¬t = s := fun hh => het (by rw [hes, hh])
        have hst : ¬s = t := fun hh => hts hh.symm
        simp [dictGet_cons, hes, hst, hts] at ih ⊢
        exact ih
    · by_cases het : e.1 = t
      · have hts : ¬t = s := fun hh => hes (by rw [het, hh])
        simp [dictGet_cons, hes, het, hts]
      · simp [dictGet_cons, hes, het] at ih ⊢
        exact ih

theorem dictGet_incPosts (m : List (String × SubActivity)) (s t : String) :
    dictGet (incPosts m s) t =
      if t = s then (dictGet m t).map (fun a => ⟨a.posts + 1, a.comments⟩)
      else dictGet m t := by
  unfold incPosts
  exact dictGet_map_entry (fun a => ⟨a.posts + 1, a.comments⟩) s m t

theorem dictGet_incComments (m : List (String × SubActivity)) (s t : String) :
    dictGet (incComments m s) t =
      if t = s then (dictGet m t).map (fun a => ⟨a.posts, a.comments + 1⟩)
      else dictGet m t := by
  unfold incComments
  exact dictGet_map_entry (fun a => ⟨a.posts, a.comments + 1⟩) s m t

theorem dictGet_append_single (m : List (String × SubActivity)) (s : String)
    (a : SubActivity) (t : String) :
    dictGet (m ++ [(s, a)]) t =
      match dictGet m t with
      | some b => some b
      | none => if s == t then some a else none := by
  induction m with
  | nil =>
    by_cases h : (s == t) = true <;> simp [dictGet, List.find?, h]
  | cons e m ih =>
    by_cases he : (e.1 == t) = true
    · simp [List.cons_append, dictGet_cons, he]
    · simp [List.cons_append, dictGet_cons, he, ih]

theorem dictGet_none_of_not_containsKey {m : List (String × SubActivity)}
    {s : String} (h : containsKey m s = false) :
    dictGet m s = none := by
  induction m with
  | nil => rfl
  | cons e m ih =>
    simp only [containsKey, List.any_cons, Bool.or_eq_false_iff] at h
    rw [dictGet_cons, if_neg (by simp [h.1])]
    exact ih (by simpa [containsKey] using h.2)

theorem dictGet_some_of_containsKey {m : List (String × SubActivity)}
    {s : String} (h : containsKey m s = true) :
    ∃ a, dictGet m s = some a := by
  induction m with
  | nil => simp [containsKey] at h
  | cons e m ih =>
    by_cases he : (e.1 == s) = true
    · exact ⟨e.2, by simp [dictGet_cons, he]⟩
    · simp only [containsKey, List.any_cons, he, Bool.false_or] at h
      obtain ⟨a, ha⟩ := ih (by simpa [containsKey] using h)
      exact ⟨a, by simp [dictGet_cons, he, ha]⟩

theorem dictGet_stepPostMap_eq (m : List (String × SubActivity)) (s : String) :
    dictGet (stepPostMap m s) s =
      some ⟨optPosts (dictGet m s) + 1, optComments (dictGet m s)⟩ := by
  unfold stepPostMap
  by_cases hc : containsKey m s = true
  · rw [if_pos hc, dictGet_incPosts, if_pos rfl]
    obtain ⟨a, ha⟩ := dictGet_some_of_containsKey hc
    simp [ha, optPosts, optComments]
  · rw [if_neg hc, dictGet_incPosts, if_pos rfl, dictGet_append_single]
    have hn : dictGet m s = none :=
      dictGet_none_of_not_containsKey (by simpa using hc)
    simp [hn, optPosts, optComments]

theorem dictGet_stepPostMap_ne (m : List (String × SubActivity)) {s t : String}
    (h : t ≠ s) :
    dictGet (stepPostMap m s) t = dictGet m t := by
  unfold stepPostMap
  by_cases hc : containsKey m s = true
  · rw [if_pos hc, dictGet_incPosts, if_neg h]
  · rw [if_neg hc, dictGet_incPosts, if_neg h, dictGet_append_single]
    cases hg : dictGet m t with
    | some b => simp
    | none => simp [Ne.symm h]

theorem dictGet_stepCommentMap_eq (m : List (String × SubActivity)) (s : String) :
    dictGet (stepCommentMap m s) s =
      some ⟨optPosts (dictGet m s), optComments (dictGet m s) + 1⟩ := by
  unfold stepCommentMap
  by_cases hc : containsKey m s = true
  · rw [if_pos hc, dictGet_incComments, if_pos rfl]
    obtain ⟨a, ha⟩ := dictGet_some_of_containsKey hc
    simp [ha, optPosts, optComments]
  · rw [if_neg hc, dictGet_incComments, if_pos rfl, dictGet_append_single]
    have hn : dictGet m s = none :=
      dictGet_none_of_not_containsKey (by simpa using hc)
    simp [hn, optPosts, optComments]

theorem dictGet_stepCommentMap_ne (m : List (String × SubActivity)) {s t : String}
    (h : t ≠ s) :
    dictGet (stepCommentMap m s) t = dictGet m t := by
  unfold stepCommentMap
  by_cases hc : containsKey m s = true
  · rw [if_pos hc, dictGet_incComments, if_neg h]
  · rw [if_neg hc, dictGet_incComments, if_neg h, dictGet_append_single]
    cases hg : dictGet m t with
    | some b => simp
    | none => simp [Ne.symm h]

theorem postCount_append (ps : List Post) (p : Post) (t : String) :
    postCount (ps ++ [p]) t = postCount ps t + if p.subreddit = t then 1 else 0 := by
  simp [postCount, List.countP_append, List.countP_cons]

theorem commentCount_append (cs : List Comment) (c : Comment) (t : String) :
    commentCount (cs ++ [c]) t = commentCount cs t + if c.subreddit = t then 1 else 0 := by
  simp [commentCount, List.countP_append, List.countP_cons]

theorem postCount_eq_zero {ps : List Post} {t : String}
    (h : t ∉ ps.map Post.subreddit) : postCount ps t = 0 := by
  simp only [postCount, List.countP_eq_zero]
  intro q hq hqt
  exact h (List.mem_map.mpr ⟨q, hq, by simpa using hqt⟩)

theorem commentCount_eq_zero {cs : List Comment} {t : String}
    (h : t ∉ cs.map Comment.subreddit) : commentCount cs t = 0 := by
  simp only [commentCount, List.countP_eq_zero]
  intro q hq hqt
  exact h (List.mem_map.mpr ⟨q, hq, by simpa using hqt⟩)

theorem dictGet_postsFold (ps : List Post) (M : List (String × SubActivity)) (t : String) :
    dictGet (ps.foldl (fun m p => stepPostMap m p.subreddit) M) t =
      if t ∈ ps.map Post.subreddit then
        some ⟨optPosts (dictGet M t) + postCount ps t, optComments (dictGet M t)⟩
      else dictGet M t := by
  induction ps using List.reverseRecOn with
  | nil => simp [postCount]
  | append_singleton ps p ih =>
    rw [List.foldl_append]
    simp only [List.foldl_cons, List.foldl_nil]
    by_cases hpt : t = p.subreddit
    · rw [← hpt, dictGet_stepPostMap_eq, ih, postCount_append]
      by_cases hmem : t ∈ ps.map Post.subreddit
      · rw [if_pos hmem,
          if_pos (by simp only [List.map_append]; exact List.mem_append_left _ hmem)]
        simp [optPosts, optComments, hpt, Nat.add_assoc]
      · rw [if_neg hmem,
          if_pos (by simp [List.map_append, hpt])]
        rw [postCount_eq_zero hmem]
        simp [optPosts, optComments, hpt]
    · rw [dictGet_stepPostMap_ne _ hpt, ih]
      have hps : ¬p.subreddit = t := fun hh => hpt hh.symm
      have hmap : t ∈ List.map Post.subreddit (ps ++ [p]) ↔
          t ∈ List.map Post.subreddit ps := by
        simp [List.map_append, hpt]
      by_cases hmem : t ∈ ps.map Post.subreddit
      · rw [if_pos hmem, if_pos (hmap.mpr hmem), postCount_append, if_neg hps]
        simp
      · rw [if_neg hmem, if_neg (fun hh => hmem (hmap.mp hh))]

theorem dictGet_commentsFold (cs : List Comment) (M : List (String × SubActivity))
    (t : String) :
    dictGet (cs.foldl (fun m c => stepCommentMap m c.subreddit) M) t =
      if t ∈ cs.map Comment.subreddit then
        some ⟨optPosts (dictGet M t), optComments (dictGet M t) + commentCount cs t⟩
      else dictGet M t := by
  induction cs using List.reverseRecOn with
  | nil => simp [commentCount]
  | append_singleton cs c ih =>
    rw [List.foldl_append]
    simp only [List.foldl_cons, List.foldl_nil]
    by_cases hct : t = c.subreddit
    · rw [← hct, dictGet_stepCommentMap_eq, ih, commentCount_append]
      by_cases hmem : t ∈ cs.map Comment.subreddit
      · rw [if_pos hmem,
          if_pos (by simp only [List.map_append]; exact List.mem_append_left _ hmem)]
        simp [optPosts, optComments, hct, Nat.add_assoc]
      · rw [if_neg hmem,
          if_pos (by simp [List.map_append, hct])]
        rw [commentCount_eq_zero hmem]
        simp [optPosts, optComments, hct]
    · rw [dictGet_stepCommentMap_ne _ hct, ih]
      have hcsne : ¬c.subreddit = t := fun hh => hct hh.symm
      have hmap : t ∈ List.map Comment.subreddit (cs ++ [c]) ↔
          t ∈ List.map Comment.subreddit cs := by
        simp [List.map_append, hct]
      by_cases hmem : t ∈ cs.map Comment.subreddit
      · rw [if_pos hmem, if_pos (hmap.mpr hmem), commentCount_append, if_neg hcsne]
        simp
      · rw [if_neg hmem, if_neg (fun hh => hmem (hmap.mp hh))]

theorem snd_get_active (ps : List Post) (cs : List Comment) :
    (get_active_subreddits ps cs).2 =
      cs.foldl (fun m c => stepCommentMap m c.subreddit)
        (ps.foldl (fun m p => stepPostMap m p.subreddit) []) := by
  show (cs.foldl stepComment (ps.foldl stepPost ([], []))).2 = _
  rw [snd_foldl_stepComment, snd_foldl_stepPost]

theorem fst_get_active (ps : List Post) (cs : List Comment) :
    (get_active_subreddits ps cs).1 =
      sortStrings
        (cs.foldl (fun s c => setAdd s c.subreddit)
          (ps.foldl (fun s p => setAdd s p.subreddit) [])) := by
  show sortStrings ((cs.foldl stepComment (ps.foldl stepPost ([], []))).1) = _
  rw [fst_foldl_stepComment, fst_foldl_stepPost]

theorem dictGet_active (ps : List Post) (cs : List Comment) (t : String) :
    dictGet (get_active_subreddits ps cs).2 t =
      if t ∈ ps.map Post.subreddit ∨ t ∈ cs.map Comment.subreddit then
        some ⟨postCount ps t, commentCount cs t⟩
      else none := by
  rw [snd_get_active, dictGet_commentsFold, dictGet_postsFold]
  have hnil : dictGet ([] : List (String × SubActivity)) t = none := rfl
  by_cases hp : t ∈ ps.map Post.subreddit
  · by_cases hc : t ∈ cs.map Comment.subreddit
    · rw [if_pos hc, if_pos hp, if_pos (Or.inl hp)]
      simp [hnil, optPosts, optComments]
    · rw [if_neg hc, if_pos hp, if_pos (Or.inl hp)]
      rw [commentCount_eq_zero hc]
      simp [hnil, optPosts, optComments]
  · by_cases hc : t ∈ cs.map Comment.subreddit
    · rw [if_pos hc, if_neg hp, if_pos (Or.inr hc)]
      rw [postCount_eq_zero hp]
      simp [hnil, optPosts, optComments]
    · rw [if_neg hc, if_neg hp, if_neg (by simp [hp, hc])]
      exact hnil

/-! ### Keys of the activity dict are unique -/

theorem keys_incPosts (m : List (String × SubActivity)) (s : String) :
    (incPosts m s).map Prod.fst = m.map Prod.fst := by
  unfold incPosts
  rw [List.map_map]
  apply List.map_congr_left
  intro e _
  by_cases hes : e.1 = s <;> simp [hes]

theorem keys_incComments (m : List (String × SubActivity)) (s : String) :
    (incComments m s).map Prod.fst = m.map Prod.fst := by
  unfold incComments
  rw [List.map_map]
  apply List.map_congr_left
  intro e _
  by_cases hes : e.1 = s <;> simp [hes]

theorem keys_stepPostMap (m : List (String × SubActivity)) (s : String) :
    (stepPostMap m s).map Prod.fst =
      if containsKey m s then m.map Prod.fst else m.map Prod.fst ++ [s] := by
  unfold stepPostMap
  by_cases h : containsKey m s = true
  · rw [if_pos h, if_pos h, keys_incPosts]
  · rw [if_neg h, if_neg h, keys_incPosts]
    simp

theorem keys_stepCommentMap (m : List (String × SubActivity)) (s : String) :
    (stepCommentMap m s).map Prod.fst =
      if containsKey m s then m.map Prod.fst else m.map Prod.fst ++ [s] := by
  unfold stepCommentMap
  by_cases h : containsKey m s = true
  · rw [if_pos h, if_pos h, keys_incComments]
  · rw [if_neg h, if_neg h, keys_incComments]
    simp

theorem keysNodup_stepPostMap {m : List (String × SubActivity)} (s : String)
    (h : (m.map Prod.fst).Nodup) : ((stepPostMap m s).map Prod.fst).Nodup := by
  rw [keys_stepPostMap]
  by_cases hc : containsKey m s = true
  · rwa [if_pos hc]
  · rw [if_neg hc]
    have hs : s ∉ m.map Prod.fst := fun hmem => hc (containsKey_iff.mpr hmem)
    rw [List.nodup_append]
    refine ⟨h, List.nodup_singleton s, ?_⟩
    intro a ha hb
    rw [List.mem_singleton] at hb
    subst hb
    exact hs ha

theorem keysNodup_stepCommentMap {m : List (String × SubActivity)} (s : String)
    (h : (m.map Prod.fst).Nodup) : ((stepCommentMap m s).map Prod.fst).Nodup := by
  rw [keys_stepCommentMap]
  by_cases hc : containsKey m s = true
  · rwa [if_pos hc]
  · rw [if_neg hc]
    have hs : s ∉ m.map Prod.fst := fun hmem => hc (containsKey_iff.mpr hmem)
    rw [List.nodup_append]
    refine ⟨h, List.nodup_singleton s, ?_⟩
    intro a ha hb
    rw [List.mem_singleton] at hb
    subst hb
    exact hs ha

theorem keysNodup_postsFold (ps : List Post) :
    ∀ M : List (String × SubActivity), (M.map Prod.fst).Nodup →
      ((ps.foldl (fun m p => stepPostMap m p.subreddit) M).map Prod.fst).Nodup := by
  induction ps with
  | nil => intro M h; simpa using h
  | cons p ps ih =>
    intro M h
    exact ih _ (keysNodup_stepPostMap _ h)

theorem keysNodup_commentsFold (cs : List Comment) :
    ∀ M : List (String × SubActivity), (M.map Prod.fst).Nodup →
      ((cs.foldl (fun m c => stepCommentMap m c.subreddit) M).map Prod.fst).Nodup := by
  induction cs with
  | nil => intro M h; simpa using h
  | cons c cs ih =>
    intro M h
    exact ih _ (keysNodup_stepCommentMap _ h)

theorem keysNodup_active (ps : List Post) (cs : List Comment) :
    (((get_active_subreddits ps cs).2).map Prod.fst).Nodup := by
  rw [snd_get_active]
  exact keysNodup_commentsFold _ _ (keysNodup_postsFold _ _ List.nodup_nil)

theorem mem_keys_iff_isSome (m : List (String × SubActivity)) (t : String) :
    t ∈ m.map Prod.fst ↔ (dictGet m t).isSome := by
  constructor
  · intro hmem
    obtain ⟨a, ha⟩ := dictGet_some_of_containsKey (containsKey_iff.mpr hmem)
    simp [ha]
  · intro hsome
    by_cases hc : containsKey m t = true
    · exact containsKey_iff.mp hc
    · rw [dictGet_none_of_not_containsKey (by simpa using hc)] at hsome
      simp at hsome

/-! ### Sums of the counters -/

theorem sumPosts_incPosts (m : List (String × SubActivity)) (s : String) :
    sumPosts (incPosts m s) = sumPosts m + m.countP (fun e => e.1 == s) := by
  induction m with
  | nil => rfl
  | cons e m ih =>
    by_cases h : (e.1 == s) = true
    · simp only [incPosts, List.map_cons, if_pos h] at ih ⊢
      simp [sumPosts, List.countP_cons, h] at ih ⊢
      omega
    · simp only [incPosts, List.map_cons, if_neg h] at ih ⊢
      simp [sumPosts, List.countP_cons, h] at ih ⊢
      omega

theorem sumComments_incComments (m : List (String × SubActivity)) (s : String) :
    sumComments (incComments m s) = sumComments m + m.countP (fun e => e.1 == s) := by
  induction m with
  | nil => rfl
  | cons e m ih =>
    by_cases h : (e.1 == s) = true
    · simp only [incComments, List.map_cons, if_pos h] at ih ⊢
      simp [sumComments, List.countP_cons, h] at ih ⊢
      omega
    · simp only [incComments, List.map_cons, if_neg h] at ih ⊢
      simp [sumComments, List.countP_cons, h] at ih ⊢
      omega

theorem sumComments_incPosts (m : List (String × SubActivity)) (s : String) :
    sumComments (incPosts m s) = sumComments m := by
  induction m with
  | nil => rfl
  | cons e m ih =>
    by_cases h : (e.1 == s) = true
    · simp only [incPosts, List.map_cons, if_pos h] at ih ⊢
      simp only [sumComments, List.map_cons, List.sum_cons] at ih ⊢
      omega
    · simp only [incPosts, List.map_cons, if_neg h] at ih ⊢
      simp only [sumComments, List.map_cons, List.sum_cons] at ih ⊢
      omega

theorem sumPosts_incComments (m : List (String × SubActivity)) (s : String) :
    sumPosts (incComments m s) = sumPosts m := by
  induction m with
  | nil => rfl
  | cons e m ih =>
    by_cases h : (e.1 == s) = true
    · simp only [incComments, List.map_cons, if_pos h] at ih ⊢
      simp only [sumPosts, List.map_cons, List.sum_cons] at ih ⊢
      omega
    · simp only [incComments, List.map_cons, if_neg h] at ih ⊢
      simp only [sumPosts, List.map_cons, List.sum_cons] at ih ⊢
      omega

theorem countKey_eq_zero {m : List (String × SubActivity)} {s : String}
    (h : containsKey m s = false) : m.countP (fun e => e.1 == s) = 0 := by
  rw [List.countP_eq_zero]
  intro e he hbeq
  have : containsKey m s = true := by
    unfold containsKey
    rw [List.any_eq_true]
    exact ⟨e, he, hbeq⟩
  rw [h] at this
  exact Bool.false_ne_true this

theorem countKey_eq_one {m : List (String × SubActivity)} {s : String}
    (hk : (m.map Prod.fst).Nodup) (h : containsKey m s = true) :
    m.countP (fun e => e.1 == s) = 1 := by
  have hmap : m.countP (fun e => e.1 == s) = (m.map Prod.fst).countP (fun k => k == s) := by
    rw [List.countP_map]
    rfl
  rw [hmap]
  have hcount : (m.map Prod.fst).countP (fun k => k == s) = (m.map Prod.fst).count s :=
    rfl
  rw [hcount]
  exact List.count_eq_one_of_mem hk (containsKey_iff.mp h)

theorem sumPosts_append_single (m : List (String × SubActivity)) (s : String)
    (a : SubActivity) :
    sumPosts (m ++ [(s, a)]) = sumPosts m + a.posts := by
  simp [sumPosts]

theorem sumComments_append_single (m : List (String × SubActivity)) (s : String)
    (a : SubActivity) :
    sumComments (m ++ [(s, a)]) = sumComments m + a.comments := by
  simp [sumComments]

theorem sumPosts_stepPostMap {m : List (String × SubActivity)} (s : String)
    (hk : (m.map Prod.fst).Nodup) :
    sumPosts (stepPostMap m s) = sumPosts m + 1 := by
  unfold stepPostMap
  by_cases hc : containsKey m s = true
  · rw [if_pos hc, sumPosts_incPosts, countKey_eq_one hk hc]
  · rw [if_neg hc, sumPosts_incPosts, sumPosts_append_single]
    have hzero : m.countP (fun e => e.1 == s) = 0 :=
      countKey_eq_zero (by simpa using hc)
    have hcont : containsKey (m ++ [(s, (⟨0, 0⟩ : SubActivity))]) s = true := by
      unfold containsKey
      rw [List.any_eq_true]
      exact ⟨(s, ⟨0, 0⟩), by simp, by simp⟩
    rw [List.countP_append]
    simp [hzero]

theorem sumComments_stepPostMap (m : List (String × SubActivity)) (s : String) :
    sumComments (stepPostMap m s) = sumComments m := by
  unfold stepPostMap
  by_cases hc : containsKey m s = true
  · rw [if_pos hc, sumComments_incPosts]
  · rw [if_neg hc, sumComments_incPosts, sumComments_append_single]
    simp

theorem sumComments_stepCommentMap {m : List (String × SubActivity)} (s : String)
    (hk : (m.map Prod.fst).Nodup) :
    sumComments (stepCommentMap m s) = sumComments m + 1 := by
  unfold stepCommentMap
  by_cases hc : containsKey m s = true
  · rw [if_pos hc, sumComments_incComments, countKey_eq_one hk hc]
  · rw [if_neg hc, sumComments_incComments, sumComments_append_single]
    have hzero : m.countP (fun e => e.1 == s) = 0 :=
      countKey_eq_zero (by simpa using hc)
    rw [List.countP_append]
    simp [hzero]

theorem sumPosts_stepCommentMap (m : List (String × SubActivity)) (s : String) :
    sumPosts (stepCommentMap m s) = sumPosts m := by
  unfold stepCommentMap
  by_cases hc : containsKey m s = true
  · rw [if_pos hc, sumPosts_incComments]
  · rw [if_neg hc, sumPosts_incComments, sumPosts_append_single]
    simp

theorem sumPosts_postsFold (ps : List Post) :
    ∀ M : List (String × SubActivity), (M.map Prod.fst).Nodup →
      sumPosts (ps.foldl (fun m p => stepPostMap m p.subreddit) M) =
        sumPosts M + ps.length := by
  induction ps with
  | nil => intro M _; simp
  | cons p ps ih =>
    intro M hk
    rw [List.foldl_cons, ih _ (keysNodup_stepPostMap _ hk),
      sumPosts_stepPostMap _ hk, List.length_cons]
    omega

theorem sumComments_postsFold (ps : List Post) :
    ∀ M : List (String × SubActivity),
      sumComments (ps.foldl (fun m p => stepPostMap m p.subreddit) M) =
        sumComments M := by
  induction ps with
  | nil => intro M; rfl
  | cons p ps ih =>
    intro M
    rw [List.foldl_cons, ih _, sumComments_stepPostMap]

theorem sumComments_commentsFold (cs : List Comment) :
    ∀ M : List (String × SubActivity), (M.map Prod.fst).Nodup →
      sumComments (cs.foldl (fun m c => stepCommentMap m c.subreddit) M) =
        sumComments M + cs.length := by
  induction cs with
  | nil => intro M _; simp
  | cons c cs ih =>
    intro M hk
    rw [List.foldl_cons, ih _ (keysNodup_stepCommentMap _ hk),
      sumComments_stepCommentMap _ hk, List.length_cons]
    omega

theorem sumPosts_commentsFold (cs : List Comment) :
    ∀ M : List (String × SubActivity),
      sumPosts (cs.foldl (fun m c => stepCommentMap m c.subreddit) M) =
        sumPosts M := by
  induction cs with
  | nil => intro M; rfl
  | cons c cs ih =>
    intro M
    rw [List.foldl_cons, ih _, sumPosts_stepCommentMap]

/-! ### Helper lemmas about credential loading -/

theorem envCredentials_client_id (env : Env) :
    (envCredentials env).client_id = env.client_id := rfl

theorem envCredentials_client_secret (env : Env) :
    (envCredentials env).client_secret = env.client_secret := rfl

theorem updateFrom_client_id (c : Credentials) (f : SecretsFile) :
    (updateFrom c f).client_id = mergeField f.client_id c.client_id := rfl

theorem updateFrom_client_secret (c : Credentials) (f : SecretsFile) :
    (updateFrom c f).client_secret = mergeField f.client_secret c.client_secret := rfl

theorem updateFrom_user_agent (c : Credentials) (f : SecretsFile) :
    (updateFrom c f).user_agent = mergeField f.user_agent c.user_agent := rfl

theorem updateFrom_username (c : Credentials) (f : SecretsFile) :
    (updateFrom c f).username = mergeField f.username c.username := rfl

theorem updateFrom_password (c : Credentials) (f : SecretsFile) :
    (updateFrom c f).password = mergeField f.password c.password := rfl

theorem credsAfter_env_truthy (env : Env) (s : SecretsState)
    (h : truthy env.client_id = true) : credsAfter env s = envCredentials env := by
  unfold credsAfter
  rw [show truthy (envCredentials env).client_id = true from h]
  rfl

theorem credsAfter_env_falsy_present (env : Env) (f : SecretsFile)
    (h : truthy env.client_id = false) :
    credsAfter env (SecretsState.present f) = updateFrom (envCredentials env) f := by
  unfold credsAfter
  rw [show truthy (envCredentials env).client_id = false from h]
  rfl

theorem credsAfter_env_falsy_absent (env : Env)
    (h : truthy env.client_id = false) :
    credsAfter env SecretsState.absent = envCredentials env := by
  unfold credsAfter
  rw [show truthy (envCredentials env).client_id = false from h]
  rfl

theorem credsAfter_env_falsy_unreadable (env : Env)
    (h : truthy env.client_id = false) :
    credsAfter env SecretsState.unreadable = envCredentials env := by
  unfold credsAfter
  rw [show truthy (envCredentials env).client_id = false from h]
  rfl

theorem truthy_env_of_missing {eo fo : Option String}
    (h : missingFromBoth eo fo = true) : truthy eo = false := by
  unfold missingFromBoth at h
  rw [Bool.and_eq_true, Bool.not_eq_true', Bool.not_eq_true'] at h
  exact h.1

theorem truthy_file_of_missing {eo fo : Option String}
    (h : missingFromBoth eo fo = true) : truthy fo = false := by
  unfold missingFromBoth at h
  rw [Bool.and_eq_true, Bool.not_eq_true', Bool.not_eq_true'] at h
  exact h.2

theorem truthy_merge_eq_false {eo fo : Option String}
    (h : missingFromBoth eo fo = true) :
    truthy (mergeField fo eo) = false := by
  cases fo with
  | some v => exact truthy_file_of_missing h
  | none => exact truthy_env_of_missing h

theorem creds_invalid_of_missing (env : Env) (s : SecretsState)
    (h : missing_required env s = true) :
    (truthy (credsAfter env s).client_id &&
      truthy (credsAfter env s).client_secret) = false := by
  unfold missing_required at h
  rw [Bool.or_eq_true] at h
  rcases h with hA | hB
  · have hEnv : truthy env.client_id = false := truthy_env_of_missing hA
    have hid : truthy (credsAfter env s).client_id = false := by
      cases s with
      | absent =>
        rw [credsAfter_env_falsy_absent env hEnv, envCredentials_client_id]
        exact hEnv
      | unreadable =>
        rw [credsAfter_env_falsy_unreadable env hEnv, envCredentials_client_id]
        exact hEnv
      | present f =>
        rw [credsAfter_env_falsy_present env f hEnv, updateFrom_client_id,
          envCredentials_client_id]
        have hA2 : missingFromBoth env.client_id f.client_id = true := by
          simpa [fileField] using hA
        exact truthy_merge_eq_false hA2
    rw [hid, Bool.false_and]
  · by_cases hEnv : truthy env.client_id = true
    · rw [credsAfter_env_truthy env s hEnv, envCredentials_client_secret,
        truthy_env_of_missing hB, Bool.and_false]
    · have hEnvF : truthy env.client_id = false := by
        cases hq : truthy env.client_id
        · rfl
        · exact absurd hq hEnv
      have hsec : truthy (credsAfter env s).client_secret = false := by
        cases s with
        | absent =>
          rw [credsAfter_env_falsy_absent env hEnvF, envCredentials_client_secret]
          exact truthy_env_of_missing hB
        | unreadable =>
          rw [credsAfter_env_falsy_unreadable env hEnvF, envCredentials_client_secret]
          exact truthy_env_of_missing hB
        | present f =>
          rw [credsAfter_env_falsy_present env f hEnvF, updateFrom_client_secret,
            envCredentials_client_secret]
          have hB2 : missingFromBoth env.client_secret f.client_secret = true := by
            simpa [fileField] using hB
          exact truthy_merge_eq_false hB2
      rw [hsec, Bool.and_false]

/-! ### Claim theorems -/

/-- C1: for every pair of finite post and comment sequences, the community list
returned by the aggregation of `get_active_subreddits` contains exactly the
union of the `subreddit` fields of all posts and all comments, is sorted
lexicographically ascending (strictly, hence without duplicate entries), and
the src/main.py variant returns the same list. -/
theorem active_subreddits_eq_sorted_union (ps : List Post) (cs : List Comment) :
    (∀ x, x ∈ (get_active_subreddits ps cs).1 ↔
        x ∈ ps.map Post.subreddit ∨ x ∈ cs.map Comment.subreddit) ∧
    ((get_active_subreddits ps cs).1).Sorted (· < ·) ∧
    ((get_active_subreddits ps cs).1).Nodup ∧
    main_get_active_subreddits ps cs = (get_active_subreddits ps cs).1 := by
  refine ⟨(active_list_spec ps cs).1, (active_list_spec ps cs).2,
    (active_list_spec ps cs).2.nodup, ?_⟩
  rw [fst_get_active]
  rfl

/-- C2: summing the post counters over all entries of the community activity
map yields the total number of posts processed, and likewise the comment
counters sum to the total number of comments. -/
theorem activity_counts_sum_to_totals (ps : List Post) (cs : List Comment) :
    sumPosts (get_active_subreddits ps cs).2 = ps.length ∧
    sumComments (get_active_subreddits ps cs).2 = cs.length := by
  constructor
  · rw [snd_get_active, sumPosts_commentsFold,
      sumPosts_postsFold _ _ (by simp)]
    simp [sumPosts]
  · rw [snd_get_active,
      sumComments_commentsFold _ _ (keysNodup_postsFold _ _ (by simp)),
      sumComments_postsFold]
    simp [sumComments]

/-- C3: every community appearing in any post or comment has exactly one entry
in the community activity map; its post counter equals the number of posts
tagged with it, its comment counter the number of comments tagged with it, and
both counters are non-negative naturals. A community appearing in both posts
and comments therefore has a single entry with both counters populated. -/
theorem activity_map_entry_unique_and_correct (ps : List Post) (cs : List Comment)
    (t : String)
    (h : t ∈ ps.map Post.subreddit ∨ t ∈ cs.map Comment.subreddit) :
    ((get_active_subreddits ps cs).2).countP (fun e => e.1 == t) = 1 ∧
    dictGet (get_active_subreddits ps cs).2 t =
      some ⟨postCount ps t, commentCount cs t⟩ ∧
    0 ≤ postCount ps t ∧ 0 ≤ commentCount cs t := by
  have hd := dictGet_active ps cs t
  rw [if_pos h] at hd
  refine ⟨?_, hd, Nat.zero_le _, Nat.zero_le _⟩
  apply countKey_eq_one (keysNodup_active ps cs)
  rw [containsKey_iff, mem_keys_iff_isSome, hd]
  rfl

/-- Witness for C3 at the worked example of spec section 8: two posts in go and
rust, one comment in go. -/
theorem activity_map_entry_unique_and_correct_witness :
    (("go" : String) ∈ [examplePostGo, examplePostRust].map Post.subreddit ∨
      ("go" : String) ∈ [exampleCommentGo].map Comment.subreddit) ∧
    ((get_active_subreddits [examplePostGo, examplePostRust]
        [exampleCommentGo]).2).countP (fun e => e.1 == "go") = 1 ∧
    dictGet (get_active_subreddits [examplePostGo, examplePostRust]
        [exampleCommentGo]).2 "go" = some ⟨1, 1⟩ := by
  refine ⟨Or.inl (by decide), ?_, ?_⟩
  · exact (activity_map_entry_unique_and_correct [examplePostGo, examplePostRust]
      [exampleCommentGo] "go" (Or.inl (by decide))).1
  · have hq := (activity_map_entry_unique_and_correct [examplePostGo, examplePostRust]
      [exampleCommentGo] "go" (Or.inl (by decide))).2.1
    rw [hq]
    decide

/-- C4: the aggregation result is invariant under permutations of the post
sequence and of the comment sequence: the sorted community lists are equal and
the activity maps agree on every lookup. -/
theorem active_subreddits_perm_invariant (ps1 ps2 : List Post)
    (cs1 cs2 : List Comment) (hp : ps1.Perm ps2) (hc : cs1.Perm cs2) :
    (get_active_subreddits ps1 cs1).1 = (get_active_subreddits ps2 cs2).1 ∧
    ∀ t, dictGet (get_active_subreddits ps1 cs1).2 t =
        dictGet (get_active_subreddits ps2 cs2).2 t := by
  have hmemp : ∀ x, x ∈ ps1.map Post.subreddit ↔ x ∈ ps2.map Post.subreddit :=
    fun x => (hp.map Post.subreddit).mem_iff
  have hmemc : ∀ x, x ∈ cs1.map Comment.subreddit ↔ x ∈ cs2.map Comment.subreddit :=
    fun x => (hc.map Comment.subreddit).mem_iff
  constructor
  · have h1 := active_list_spec ps1 cs1
    have h2 := active_list_spec ps2 cs2
    have hmem : ∀ x, x ∈ (get_active_subreddits ps1 cs1).1 ↔
        x ∈ (get_active_subreddits ps2 cs2).1 := by
      intro x
      rw [h1.1 x, h2.1 x]
      exact or_congr (hmemp x) (hmemc x)
    have hperm : ((get_active_subreddits ps1 cs1).1).Perm
        (get_active_subreddits ps2 cs2).1 :=
      (List.perm_ext_iff_of_nodup h1.2.nodup h2.2.nodup).mpr hmem
    exact List.eq_of_perm_of_sorted hperm
      (h1.2.imp (fun hlt => le_of_lt hlt)) (h2.2.imp (fun hlt => le_of_lt hlt))
  · intro t
    rw [dictGet_active, dictGet_active]
    have hpc : postCount ps1 t = postCount ps2 t := hp.countP_eq _
    have hcc : commentCount cs1 t = commentCount cs2 t := hc.countP_eq _
    have hiff := or_congr (hmemp t) (hmemc t)
    by_cases hmem : t ∈ ps1.map Post.subreddit ∨ t ∈ cs1.map Comment.subreddit
    · rw [if_pos hmem, if_pos (hiff.mp hmem), hpc, hcc]
    · rw [if_neg hmem, if_neg (fun hh => hmem (hiff.mpr hh))]

/-- Witness for C4: swapping the two example posts leaves both outputs
unchanged. -/
theorem active_subreddits_perm_invariant_witness :
    ([examplePostGo, examplePostRust].Perm [examplePostRust, examplePostGo]) ∧
    (get_active_subreddits [examplePostGo, examplePostRust] [exampleCommentGo]).1 =
      (get_active_subreddits [examplePostRust, examplePostGo] [exampleCommentGo]).1 :=
  ⟨by decide,
   (active_subreddits_perm_invariant [examplePostGo, examplePostRust]
      [examplePostRust, examplePostGo] [exampleCommentGo] [exampleCommentGo]
      (by decide) (List.Perm.refl _)).1⟩

/-- C5: empty post and comment sequences produce the empty sorted list and the
empty activity map; the aggregation is a total function, so no error is
raised. -/
theorem active_subreddits_empty : get_active_subreddits [] [] = ([], []) := rfl

/-- C6: in the comment dict construction of `get_user_recent_activity`, a
250-character body is stored as its 200-character prefix followed by the
3-character ellipsis marker, and a 150-character body is stored unmodified. -/
theorem comment_body_truncation (c : RawComment) :
    (c.body.length = 250 →
      (mkComment c).body = c.body.take 200 ++ ellipsis ∧
      (c.body.take 200).length = 200 ∧ ellipsis.length = 3 ∧
      (mkComment c).body.length = 203) ∧
    (c.body.length = 150 → (mkComment c).body = c.body) := by
  constructor
  · intro h
    have hgt : c.body.length > 200 := by omega
    have ht : (mkComment c).body = c.body.take 200 ++ ellipsis := by
      show truncate_body c.body = _
      unfold truncate_body
      rw [if_pos hgt]
    have h3 : ellipsis.length = 3 := rfl
    refine ⟨ht, ?_, h3, ?_⟩
    · rw [List.length_take]
      omega
    · rw [ht, List.length_append, List.length_take]
      omega
  · intro h
    show truncate_body c.body = c.body
    unfold truncate_body
    rw [if_neg (by omega)]

/-- Witness for C6 on concrete 250- and 150-character bodies. -/
theorem comment_body_truncation_witness :
    (commentLong.body.length = 250 ∧
      (mkComment commentLong).body = commentLong.body.take 200 ++ ellipsis) ∧
    (commentShort.body.length = 150 ∧
      (mkComment commentShort).body = commentShort.body) :=
  ⟨⟨by simp only [commentLong, List.length_replicate],
    ((comment_body_truncation commentLong).1
      (by simp only [commentLong, List.length_replicate])).1⟩,
   ⟨by simp only [commentShort, List.length_replicate],
    (comment_body_truncation commentShort).2
      (by simp only [commentShort, List.length_replicate])⟩⟩

/-- C7: when the underlying platform fetch raises, each operation catches the
error locally, prints a message, and returns the empty result of its shape —
the empty dict for profile lookup, the dict of two empty lists for activity,
the empty list for subscriptions and friends — instead of propagating the
error. -/
theorem fetch_error_empty_fallbacks (username e : String) :
    get_user_public_info username (Except.error e) =
      (JVal.obj [], ["error fetching user info for " ++ username ++ ": " ++ e]) ∧
    get_user_recent_activity username (Except.error e) =
      (([], []), ["error fetching activity for " ++ username ++ ": " ++ e]) ∧
    get_my_subscriptions (Except.error e) =
      ([], ["error fetching subscriptions: " ++ e,
            "make sure you're authenticated with username/password"]) ∧
    get_my_friends (Except.error e) = ([], ["error fetching friends list: " ++ e]) :=
  ⟨rfl, rfl, rfl, rfl⟩

/-- C9: the persistence sink writes an object with exactly the keys timestamp,
data_type and data; reading the document back yields the original payload
unchanged under the data key, the supplied timestamp string (produced by
`datetime.now().isoformat()`) under the timestamp key, and the file name under
the data_type key. -/
theorem save_to_json_doc_shape (ts fn : String) (data : JVal) :
    objKeys (save_to_json_doc ts fn data) = ["timestamp", "data_type", "data"] ∧
    objGet (save_to_json_doc ts fn data) "data" = some data ∧
    objGet (save_to_json_doc ts fn data) "timestamp" = some (JVal.str ts) ∧
    objGet (save_to_json_doc ts fn data) "data_type" = some (JVal.str fn) :=
  ⟨rfl, rfl, rfl, rfl⟩

/-- C10: truncation applies only when the body length strictly exceeds 200 — a
body of exactly 200 characters is stored unmodified — and every stored body has
length at most 203 characters. -/
theorem comment_body_truncation_boundary (c : RawComment) :
    (c.body.length = 200 → (mkComment c).body = c.body) ∧
    (mkComment c).body.length ≤ 203 := by
  constructor
  · intro h
    show truncate_body c.body = c.body
    unfold truncate_body
    rw [if_neg (by omega)]
  · show (truncate_body c.body).length ≤ 203
    unfold truncate_body
    have h3 : ellipsis.length = 3 := rfl
    by_cases h : c.body.length > 200
    · rw [if_pos h, List.length_append, List.length_take]
      omega
    · rw [if_neg h]
      omega

/-- Witness for C10 on a concrete body of exactly 200 characters. -/
theorem comment_body_truncation_boundary_witness :
    commentExact.body.length = 200 ∧
    (mkComment commentExact).body = commentExact.body ∧
    (mkComment commentExact).body.length ≤ 203 :=
  ⟨by simp only [commentExact, List.length_replicate],
   (comment_body_truncation_boundary commentExact).1
     (by simp only [commentExact, List.length_replicate]),
   (comment_body_truncation_boundary commentExact).2⟩

/-- C8 counterexample: the environment sets client secret env-secret and user
agent env-agent but no client id, and the secrets file sets every key. Loading
succeeds and returns the file values for client secret and user agent: for
these fields set in both sources, the file value, not the environment value,
takes precedence, contradicting the claim as stated. -/
theorem load_credentials_env_precedence_cex :
    envBoth.client_secret = some "env-secret" ∧
    fileBoth.client_secret = some "file-secret" ∧
    envBoth.user_agent = some "env-agent" ∧
    fileBoth.user_agent = some "file-agent" ∧
    load_credentials envBoth (SecretsState.present fileBoth) =
      Except.ok (updateFrom (envCredentials envBoth) fileBoth) ∧
    (updateFrom (envCredentials envBoth) fileBoth).client_secret =
      some "file-secret" ∧
    (updateFrom (envCredentials envBoth) fileBoth).user_agent =
      some "file-agent" :=
  ⟨rfl, rfl, rfl, rfl, rfl, rfl, rfl⟩

/-- C8 (amended): credentials are read from environment variables or a secrets
file with the same keys. The file is consulted only when the environment client
id is falsy: when the environment provides a client id the loaded credentials
are exactly the environment ones, and when the file is read every field present
in the file takes precedence over the environment value. When a required field
(client id or client secret) is missing from both sources, loading fails with a
fatal error, and a template secrets file is created exactly when no secrets
file exists. -/
theorem load_credentials_amended (env : Env) (f : SecretsFile) (s : SecretsState) :
    (truthy env.client_id = true →
      ∀ c, load_credentials env s = Except.ok c → c = envCredentials env) ∧
    (truthy env.client_id = false →
      ∀ c, load_credentials env (SecretsState.present f) = Except.ok c →
        c = updateFrom (envCredentials env) f ∧
        (∀ v, f.client_id = some v → c.client_id = some v) ∧
        (∀ v, f.client_secret = some v → c.client_secret = some v) ∧
        (∀ v, f.user_agent = some v → c.user_agent = some v) ∧
        (∀ v, f.username = some v → c.username = some v) ∧
        (∀ v, f.password = some v → c.password = some v)) ∧
    (missing_required env s = true →
      ∃ fl, load_credentials env s = Except.error fl ∧
        (fl.templateCreated = true ↔ s = SecretsState.absent)) := by
  refine ⟨?_, ?_, ?_⟩
  · intro h1 c hc
    unfold load_credentials at hc
    rw [credsAfter_env_truthy env s h1] at hc
    by_cases h2 : (truthy (envCredentials env).client_id &&
        truthy (envCredentials env).client_secret) = true
    · rw [if_pos h2] at hc
      injection hc with hh
      exact hh.symm
    · rw [if_neg h2] at hc
      exact Except.noConfusion hc
  · intro h1 c hc
    unfold load_credentials at hc
    rw [credsAfter_env_falsy_present env f h1] at hc
    by_cases h2 : (truthy (updateFrom (envCredentials env) f).client_id &&
        truthy (updateFrom (envCredentials env) f).client_secret) = true
    · rw [if_pos h2] at hc
      injection hc with hh
      subst hh
      refine ⟨rfl, ?_, ?_, ?_, ?_, ?_⟩
      · intro v hv
        rw [updateFrom_client_id, hv]
        rfl
      · intro v hv
        rw [updateFrom_client_secret, hv]
        rfl
      · intro v hv
        rw [updateFrom_user_agent, hv]
        rfl
      · intro v hv
        rw [updateFrom_username, hv]
        rfl
      · intro v hv
        rw [updateFrom_password, hv]
        rfl
    · rw [if_neg h2] at hc
      exact Except.noConfusion hc
  · intro h3
    refine ⟨{ templateCreated := templateFlag s
              message := "reddit credentials not found. please set environment variables or create secrets.json file." },
        ?_, ?_⟩
    · unfold load_credentials
      rw [creds_invalid_of_missing env s h3]
      rfl
    · cases s <;> simp [templateFlag]

/-- Witness for C8 (amended) at concrete environments and secrets files. -/
theorem load_credentials_amended_witness :
    (truthy envBoth.client_id = false ∧
      load_credentials envBoth (SecretsState.present fileBoth) =
        Except.ok (updateFrom (envCredentials envBoth) fileBoth) ∧
      (updateFrom (envCredentials envBoth) fileBoth).client_secret =
        some "file-secret") ∧
    (missing_required envEmpty SecretsState.absent = true ∧
      ∃ fl, load_credentials envEmpty SecretsState.absent = Except.error fl ∧
        (fl.templateCreated = true ↔ SecretsState.absent = SecretsState.absent)) := by
  refine ⟨⟨rfl, rfl, ?_⟩, ⟨rfl, ?_⟩⟩
  · exact ((load_credentials_amended envBoth fileBoth SecretsState.absent).2.1
      rfl (updateFrom (envCredentials envBoth) fileBoth) rfl).2.2.1 "file-secret" rfl
  · exact (load_credentials_amended envEmpty fileBoth SecretsState.absent).2.2 rfl
